import Mathlib

/-!
Verification development for the SamvaadAI voice-interview core:
the transcript reconciler and session controls of
`frontend/src/hooks/useVapi.ts`, the evaluation heuristic
`evaluateTranscript` and the dual-termination orchestration of the
`InterviewSession` page.

Numbers: JavaScript arithmetic on these code paths is exact (small
integers and rationals), so scores are modelled over `ℚ`/`ℤ`, with
`Math.round` as `jround q = ⌊q + 1/2⌋` (JS rounds half toward +∞) and
`Math.random()` outputs passed in as an explicit rational stream.
-/

/-- Speaker of a transcript entry: `"assistant" | "user"` in
`useVapi.ts` (`user` is the candidate). -/
inductive Speaker where
  | assistant
  | user
deriving DecidableEq, Repr

/-- Model of `TranscriptEntry` in `useVapi.ts`:
`{ role, text, isFinal, timestamp }`. -/
structure TranscriptEntry where
  role : Speaker
  text : String
  isFinal : Bool
  timestamp : Nat
deriving DecidableEq, Repr

/-- A raw engine message as consumed by the `vapi.on("message")` handler.
Absent string fields are modelled as `""` (JS `undefined` and `""` are
both falsy for the `||` chains involved). -/
structure VapiMessage where
  type : String
  role : String
  transcript : String
  text : String
  transcriptType : String
deriving DecidableEq, Repr

/-- JS `a || b` on strings under the `"" = undefined` convention. -/
def jsOr (a b : String) : String := if a = "" then b else a

/-- Model of `!text.trim()`: the text is empty or whitespace-only, i.e. trimming
leaves the empty string.  Modelled structurally (`trim` removes exactly
the leading and trailing whitespace, so its result is empty iff every
character is whitespace). -/
def blankOnly (s : String) : Bool := s.data.all Char.isWhitespace

/-- Embeds `const text = message.transcript || message.text || ""`. -/
def msgText (m : VapiMessage) : String := jsOr m.transcript (jsOr m.text "")

/-- Embeds `message.role === "assistant" ? "assistant" : "user"`. -/
def msgRole (m : VapiMessage) : Speaker :=
  if m.role = "assistant" then Speaker.assistant else Speaker.user

/-- Embeds `const isFinal = message.transcriptType === "final"`. -/
def msgIsFinal (m : VapiMessage) : Bool := m.transcriptType = "final"

/-- The non-final branch of the `setTranscript` updater: find the first
non-final entry for the role and replace its text in place (timestamp
and position unchanged); otherwise append a new non-final entry.
Embeds `prev.findIndex(...) >= 0 ? set-at-index : append`. -/
def applyInterim (ρ : Speaker) (t : String) (now : Nat) :
    List TranscriptEntry → List TranscriptEntry
  | [] => [⟨ρ, t, false, now⟩]
  | e :: rest =>
      if e.role = ρ ∧ e.isFinal = false then { e with text := t } :: rest
      else e :: applyInterim ρ t now rest

/-- One step of the `vapi.on("message")` transcript reconciler of
`useVapi.ts`: ignore non-transcript messages and whitespace-only text;
a final event filters out the role's non-final entry and appends a new
final entry at the end; a partial event updates in place or appends. -/
def applyEvent (prev : List TranscriptEntry) (m : VapiMessage) (now : Nat) :
    List TranscriptEntry :=
  if m.type = "transcript" then
    let ρ := msgRole m
    let t := msgText m
    if blankOnly t then prev
    else if msgIsFinal m then
      prev.filter (fun e => !(decide (e.role = ρ) && !e.isFinal)) ++
        [⟨ρ, t, true, now⟩]
    else applyInterim ρ t now prev
  else prev

/-- Processing a finite sequence of timestamped engine messages starting
from the empty transcript. -/
def processEvents (evs : List (VapiMessage × Nat)) : List TranscriptEntry :=
  evs.foldl (fun l p => applyEvent l p.1 p.2) []

/-- Number of non-final entries for a given role. -/
def interimCount (l : List TranscriptEntry) (ρ : Speaker) : Nat :=
  l.countP (fun e => decide (e.role = ρ) && !e.isFinal)

/-- The final (committed) entries of a transcript. -/
def finalEntries (l : List TranscriptEntry) : List TranscriptEntry :=
  l.filter (fun e => e.isFinal)

/-! ## Evaluation engine (`evaluateTranscript` in the InterviewSession page)

The source computes locals (`userEntries`, `totalUserWords`, …) inside
one function; they are embedded as named definitions so each theorem can
speak about the part it concerns.  `Math.random()` values are passed in
as an explicit stream `r : ℕ → ℚ` (call k of `catScore` consumes `r k`).
-/

/-- JS `Math.round`: rounds half toward positive infinity. -/
def jround (q : ℚ) : ℤ := ⌊q + 1/2⌋

/-- Number of maximal whitespace runs in a string. -/
def wsRuns (s : String) : Nat :=
  (s.data.foldl
    (fun acc c =>
      if c.isWhitespace then (if acc.2 then acc else (acc.1 + 1, true))
      else (acc.1, false))
    ((0 : Nat), false)).1

/-- Embeds `text.split(/\s+/).length` of JS: splitting on the maximal
whitespace runs produces one more piece than there are runs (leading and
trailing empty pieces included, and `"".split` gives `[""]`). -/
def wordsJS (s : String) : Nat := wsRuns s + 1

/-- Embeds `entries.filter((e) => e.isFinal && e.role === "user")`. -/
def userEntries (entries : List TranscriptEntry) : List TranscriptEntry :=
  entries.filter (fun e => e.isFinal && decide (e.role = Speaker.user))

/-- Embeds `userEntries.reduce((sum, e) => sum + e.text.split(/\s+/).length, 0)`. -/
def totalUserWords (entries : List TranscriptEntry) : Nat :=
  ((userEntries entries).map (fun e => wordsJS e.text)).foldl (· + ·) 0

/-- Embeds `userEntries.length > 0 ? totalUserWords / userEntries.length : 0`. -/
def avgWords (entries : List TranscriptEntry) : ℚ :=
  if 0 < (userEntries entries).length then
    (totalUserWords entries : ℚ) / ((userEntries entries).length : ℚ)
  else 0

/-- Embeds `Math.min(userEntries.length / Math.max(questionCount, 1), 1)`. -/
def answeredFraction (entries : List TranscriptEntry) (qc : Nat) : ℚ :=
  min (((userEntries entries).length : ℚ) / ((max qc 1 : Nat) : ℚ)) 1

/-- Embeds `avgWordsPerAnswer >= 15`. -/
def hasSubstance (entries : List TranscriptEntry) : Prop :=
  15 ≤ avgWords entries

instance (entries : List TranscriptEntry) : Decidable (hasSubstance entries) :=
  inferInstanceAs (Decidable (15 ≤ avgWords entries))

/-- Embeds `avgWordsPerAnswer >= 40`. -/
def isDetailed (entries : List TranscriptEntry) : Prop :=
  40 ≤ avgWords entries

instance (entries : List TranscriptEntry) : Decidable (isDetailed entries) :=
  inferInstanceAs (Decidable (40 ≤ avgWords entries))

/-- Embeds `avgWordsPerAnswer > 120`. -/
def isVerbose (entries : List TranscriptEntry) : Prop :=
  120 < avgWords entries

instance (entries : List TranscriptEntry) : Decidable (isVerbose entries) :=
  inferInstanceAs (Decidable (120 < avgWords entries))

/-- Embeds `commBase`: `58 + answeredRatio*12`, `+5` substance, `+4` detailed,
`-3` verbose. -/
def commBase (entries : List TranscriptEntry) (qc : Nat) : ℚ :=
  58 + answeredFraction entries qc * 12 +
    (if hasSubstance entries then 5 else 0) +
    (if isDetailed entries then 4 else 0) -
    (if isVerbose entries then 3 else 0)

/-- Embeds `techBase`: `55 + answeredRatio*10`, `+6` detailed, `+3` if more
than 200 total words. -/
def techBase (entries : List TranscriptEntry) (qc : Nat) : ℚ :=
  55 + answeredFraction entries qc * 10 +
    (if isDetailed entries then 6 else 0) +
    (if 200 < totalUserWords entries then 3 else 0)

/-- Embeds `problemBase`: `54 + answeredRatio*10`, `+5` detailed, `+3` if the
average answer exceeds 25 words. -/
def problemBase (entries : List TranscriptEntry) (qc : Nat) : ℚ :=
  54 + answeredFraction entries qc * 10 +
    (if isDetailed entries then 5 else 0) +
    (if 25 < avgWords entries then 3 else 0)

/-- Embeds `cultureBase`: `60 + answeredRatio*8`, `+4` substance. -/
def cultureBase (entries : List TranscriptEntry) (qc : Nat) : ℚ :=
  60 + answeredFraction entries qc * 8 +
    (if hasSubstance entries then 4 else 0)

/-- Embeds `confBase`: `56 + answeredRatio*12`, `+5` substance, `+3` detailed,
`-4` verbose. -/
def confBase (entries : List TranscriptEntry) (qc : Nat) : ℚ :=
  56 + answeredFraction entries qc * 12 +
    (if hasSubstance entries then 5 else 0) +
    (if isDetailed entries then 3 else 0) -
    (if isVerbose entries then 4 else 0)

/-- Embeds `catScore(base, variance)` with the `Math.random()` draw `rnd` made
explicit: `Math.max(50, Math.min(82, Math.round(base + jitter)))` where
`jitter = (rnd - 0.5) * variance`. -/
def catScore (base variance rnd : ℚ) : ℤ :=
  max 50 (min 82 (jround (base + (rnd - 1/2) * variance)))

/-- One `{name, score, comment}` element of `categoryScores`. -/
structure CategoryScore where
  name : String
  score : ℤ
  comment : String
deriving DecidableEq, Repr

/-- Comment for Communication Skills. -/
def commComment (entries : List TranscriptEntry) : String :=
  if 30 ≤ avgWords entries then
    "Responses were clear and well-structured with good articulation."
  else if 15 ≤ avgWords entries then
    "Communication was adequate but could benefit from more detailed responses."
  else "Responses were brief. Expanding on answers would improve clarity."

/-- Comment for Technical Knowledge. -/
def techComment (entries : List TranscriptEntry) : String :=
  if isDetailed entries then
    "Demonstrated solid understanding of technical concepts discussed."
  else if hasSubstance entries then
    "Showed reasonable technical awareness but could go deeper on specifics."
  else
    "Technical depth was limited. More concrete examples would strengthen responses."

/-- Comment for Problem Solving. -/
def problemComment (entries : List TranscriptEntry) : String :=
  if isDetailed entries then
    "Good analytical approach when breaking down problems."
  else
    "Problem-solving approach could be more structured with clearer reasoning."

/-- Comment for Cultural Fit. -/
def cultureComment (entries : List TranscriptEntry) : String :=
  if hasSubstance entries then
    "Values and attitudes align reasonably well with team expectations."
  else "Difficult to fully assess cultural fit from brief responses."

/-- Comment for Confidence and Clarity. -/
def confComment (entries : List TranscriptEntry) : String :=
  if isDetailed entries then
    "Spoke confidently with clear, structured explanations."
  else if hasSubstance entries then
    "Showed adequate confidence but could be more assertive in delivery."
  else "Would benefit from more confident and elaborate delivery."

/-- The `categories` array: the five fixed categories, each scored by
`catScore` with its base and variance, in source order (the k-th
`Math.random()` call is `r k`). -/
def categoryScores (entries : List TranscriptEntry) (qc : Nat) (r : ℕ → ℚ) :
    List CategoryScore :=
  [⟨"Communication Skills", catScore (commBase entries qc) 6 (r 0),
      commComment entries⟩,
   ⟨"Technical Knowledge", catScore (techBase entries qc) 7 (r 1),
      techComment entries⟩,
   ⟨"Problem Solving", catScore (problemBase entries qc) 6 (r 2),
      problemComment entries⟩,
   ⟨"Cultural Fit", catScore (cultureBase entries qc) 5 (r 3),
      cultureComment entries⟩,
   ⟨"Confidence and Clarity", catScore (confBase entries qc) 6 (r 4),
      confComment entries⟩]

/-- Embeds `totalScore`: clamp to `[50,82]` of the rounded mean of the five
category scores. -/
def totalScore (entries : List TranscriptEntry) (qc : Nat) (r : ℕ → ℚ) : ℤ :=
  max 50 (min 82 (jround
    (((((categoryScores entries qc r).map CategoryScore.score).foldl (· + ·) 0 : ℤ) : ℚ)
      / ((categoryScores entries qc r).length : ℚ))))

/-- The `strengths` pushes, in source order. -/
def strengthsRaw (entries : List TranscriptEntry) (qc : Nat) : List String :=
  (if 68 ≤ commBase entries qc then
    ["Good communication and articulation throughout the session."] else [])
  ++ (if 65 ≤ techBase entries qc then
    ["Solid technical understanding in the discussed areas."] else [])
  ++ (if 4/5 ≤ answeredFraction entries qc then
    ["Engaged well with most of the interview questions."] else [])
  ++ (if isDetailed entries then
    ["Provided detailed answers showing depth of thought."] else [])
  ++ (if 68 ≤ confBase entries qc then
    ["Confident delivery with clear explanations."] else [])

/-- The `improvements` pushes, in source order. -/
def improvementsRaw (entries : List TranscriptEntry) (qc : Nat) : List String :=
  (if 68 ≤ commBase entries qc then [] else
    ["Work on providing more detailed and structured responses."])
  ++ (if 65 ≤ techBase entries qc then [] else
    ["Strengthen technical depth with specific examples and terminology."])
  ++ (if 4/5 ≤ answeredFraction entries qc then [] else
    ["Try to address all questions asked during the interview."])
  ++ (if isDetailed entries then [] else
    ["Aim for more comprehensive answers — 60 to 90 seconds per response."])
  ++ (if isVerbose entries then
    ["Consider being more concise to keep answers focused."] else [])
  ++ (if 68 ≤ confBase entries qc then [] else
    ["Practice speaking with more confidence and conviction."])

/-- Embeds `strengths` after the non-empty fallback. -/
def strengthsFinal (entries : List TranscriptEntry) (qc : Nat) : List String :=
  if (strengthsRaw entries qc).isEmpty then
    ["Completed the interview and showed willingness to engage."]
  else strengthsRaw entries qc

/-- Embeds `improvements` after the non-empty fallback. -/
def improvementsFinal (entries : List TranscriptEntry) (qc : Nat) : List String :=
  if (improvementsRaw entries qc).isEmpty then
    ["Continue refining responses for even greater impact."]
  else improvementsRaw entries qc

/-- Embeds `finalAssessment`: one of three fixed paragraphs by `totalScore`
thresholds. -/
def finalAssessment (entries : List TranscriptEntry) (qc : Nat) (r : ℕ → ℚ) :
    String :=
  if 75 ≤ totalScore entries qc r then
    "Strong performance overall with clear strengths in communication and knowledge. Well-prepared candidate suitable for further consideration."
  else if 65 ≤ totalScore entries qc r then
    "Adequate performance with room for growth. Demonstrated baseline competence and should focus on deepening technical responses and providing more specific examples."
  else
    "Shows potential but needs further preparation. Focusing on more detailed responses, concrete examples, and confident delivery will lead to significant improvement."

/-- The returned `EvaluationResult` object. -/
structure EvaluationResult where
  totalScore : ℤ
  categoryScores : List CategoryScore
  strengths : List String
  areasForImprovement : List String
  finalAssessment : String
deriving DecidableEq, Repr

/-- Embeds `evaluateTranscript(entries, questionCount)` with the
`Math.random()` stream `r` made explicit. -/
def evaluateTranscript (entries : List TranscriptEntry) (questionCount : Nat)
    (r : ℕ → ℚ) : EvaluationResult :=
  ⟨totalScore entries questionCount r,
   categoryScores entries questionCount r,
   strengthsFinal entries questionCount,
   improvementsFinal entries questionCount,
   finalAssessment entries questionCount r⟩

/-! ## Session controls of `useVapi.ts` (`stopCall`, `forceStop`)

The hook state is the React state of `useVapi` plus the engine-side
facts relevant to the claims.  `vapiRef` is `none` before the
initialization effect runs (or when the public key is missing); the
engine value records whether its `setMuted` and `stop` calls throw, so
that the try/catch structure of the source is observable. -/

/-- The external Vapi engine handle, abstracted to the throw behaviour
of the two calls `forceStop`/`stopCall` make on it. -/
structure Engine where
  muteThrows : Bool
  stopThrows : Bool
deriving DecidableEq, Repr

/-- State of the `useVapi` hook: the exposed React flags, the last
engine-side mute value requested, whether an engine stop was requested,
and the `vapiRef` handle. -/
structure HookState where
  isCallActive : Bool
  isLoading : Bool
  isMuted : Bool
  errorMsg : Option String
  engineMuted : Bool
  stopRequested : Bool
  vapiRef : Option Engine
deriving DecidableEq, Repr

/-- Embeds `stopCall`: return early when `vapiRef.current` is null, otherwise
call `vapi.stop()` with no try/catch — an engine throw propagates to the
caller (modelled as `Except.error ()`); the hook flags themselves are
not touched. -/
def stopCall (s : HookState) : Except Unit HookState :=
  match s.vapiRef with
  | none => Except.ok s
  | some eng =>
      if eng.stopThrows then Except.error ()
      else Except.ok { s with stopRequested := true }

/-- Embeds `forceStop`: return early when `vapiRef.current` is null; otherwise
`try setMuted(true) catch {}`, `try stop() catch {}`, then set the
exposed flags `isCallActive`, `isLoading`, `isMuted` all to `false`.
Total — no error ever propagates. -/
def forceStop (s : HookState) : HookState :=
  match s.vapiRef with
  | none => s
  | some eng =>
      { s with
        engineMuted := if eng.muteThrows then s.engineMuted else true,
        stopRequested := if eng.stopThrows then s.stopRequested else true,
        isCallActive := false, isLoading := false, isMuted := false }

/-- The hook state at mount: all flags false, no error, engine handle as
produced by the initialization effect (`none` when the public key is
missing). -/
def initHook (eng : Option Engine) : HookState :=
  ⟨false, false, false, none, false, false, eng⟩

/-- One event-loop step of the `useVapi` hook: the engine callbacks
(`call-start`, `call-end`, `error`), the body of `startCall` (the
loading transition past its guard, and its catch branch), `stopCall`
(successful or thrown), `forceStop`, and `toggleMute`.  Engine callbacks
and engine calls require `vapiRef` to be set, exactly as in the source. -/
inductive HStep : HookState → HookState → Prop
  | callStart (s : HookState) (eng : Engine) (h : s.vapiRef = some eng) :
      HStep s { s with isCallActive := true, isLoading := false, errorMsg := none }
  | callEnd (s : HookState) (eng : Engine) (h : s.vapiRef = some eng) :
      HStep s { s with isCallActive := false, isLoading := false }
  | errorEvt (s : HookState) (eng : Engine) (msg : String)
      (h : s.vapiRef = some eng) :
      HStep s { s with errorMsg := some msg, isLoading := false }
  | startCallBegin (s : HookState) (eng : Engine) (h : s.vapiRef = some eng)
      (hact : s.isCallActive = false) :
      HStep s { s with isLoading := true, errorMsg := none }
  | startCallFail (s : HookState) (eng : Engine) (msg : String)
      (h : s.vapiRef = some eng) :
      HStep s { s with errorMsg := some msg, isLoading := false }
  | stopOk (s t : HookState) (h : stopCall s = Except.ok t) : HStep s t
  | stopThrown (s : HookState) (h : stopCall s = Except.error ()) : HStep s s
  | forceStopStep (s : HookState) : HStep s (forceStop s)
  | toggleMuteStep (s : HookState) (eng : Engine) (h : s.vapiRef = some eng)
      (hact : s.isCallActive = true) :
      HStep s { s with isMuted := !s.isMuted, engineMuted := !s.isMuted }

/-- Hook states reachable from mount by event-loop steps. -/
inductive Reachable : HookState → Prop
  | init (eng : Option Engine) : Reachable (initHook eng)
  | step {s t : HookState} : Reachable s → HStep s t → Reachable t

/-! ## Orchestration of the two termination paths (InterviewSession page)

`onCallEnd` is the `useVapi` callback of the page; `confirmEnd` is the
handler of the confirm dialog's "Yes, End It" button.  An interview with
an id is in scope (the claims' session setting), so each trigger runs
evaluation, fires the persistence request and schedules navigation; the
counters record how often each happened.  `analysing` is the page state
the loader overlay reads and `onCallEnd` guards on. -/

/-- Orchestrator state of the InterviewSession page. -/
structure OrchState where
  analysing : Bool
  evalCount : Nat
  saveCount : Nat
  navCount : Nat
deriving DecidableEq, Repr

/-- The page state before any termination trigger fires. -/
def initOrch : OrchState := ⟨false, 0, 0, 0⟩

/-- The `onCallEnd` callback: `if (analysing) return;` then evaluate,
fire the background save, set `analysing` and schedule navigation. -/
def onCallEnd (s : OrchState) : OrchState :=
  if s.analysing then s
  else
    { analysing := true, evalCount := s.evalCount + 1,
      saveCount := s.saveCount + 1, navCount := s.navCount + 1 }

/-- The `confirmEnd` handler: force-stop the call, then — with no guard
check — evaluate, fire the background save, set `analysing` and schedule
navigation. -/
def confirmEnd (s : OrchState) : OrchState :=
  { analysing := true, evalCount := s.evalCount + 1,
    saveCount := s.saveCount + 1, navCount := s.navCount + 1 }

/-! ## Concrete inputs used by counterexamples and witnesses -/

/-- A partial candidate utterance (spec §8 example, first event). -/
def cexMsg1 : VapiMessage :=
  ⟨"transcript", "user", "Hi there I think", "", "partial"⟩

/-- A final interviewer utterance arriving while the candidate partial
is still open. -/
def cexMsg2 : VapiMessage :=
  ⟨"transcript", "assistant", "Go ahead", "", "final"⟩

/-- The final candidate utterance committing the open partial. -/
def cexMsg3 : VapiMessage :=
  ⟨"transcript", "user", "Hi there I think I am ready", "", "final"⟩

/-- A post-session hook state whose engine throws on `stop()`. -/
def endedThrowing : HookState :=
  ⟨false, false, false, none, false, true, some ⟨false, true⟩⟩

/-- A post-session hook state whose engine calls succeed. -/
def endedQuiet : HookState :=
  ⟨false, false, false, none, false, true, some ⟨false, false⟩⟩


/-! ## Helper lemmas -/

/-- Lemma: `applyEvent` on a non-transcript message leaves the list unchanged. -/
theorem applyEvent_not_transcript (l : List TranscriptEntry)
    (m : VapiMessage) (now : Nat) (h1 : ¬ m.type = "transcript") :
    applyEvent l m now = l := by
  simp [applyEvent, h1]

/-- Lemma: `applyEvent` on a whitespace-only text leaves the list unchanged. -/
theorem applyEvent_blank (l : List TranscriptEntry) (m : VapiMessage)
    (now : Nat) (h2 : blankOnly (msgText m) = true) :
    applyEvent l m now = l := by
  unfold applyEvent
  split
  · simp [h2]
  · rfl

/-- Reduction of `applyEvent` on a final event with non-blank text. -/
theorem applyEvent_final (l : List TranscriptEntry) (m : VapiMessage)
    (now : Nat) (h1 : m.type = "transcript")
    (h2 : blankOnly (msgText m) = false) (h3 : msgIsFinal m = true) :
    applyEvent l m now =
      l.filter (fun e => !(decide (e.role = msgRole m) && !e.isFinal)) ++
        [⟨msgRole m, msgText m, true, now⟩] := by
  simp [applyEvent, h1, h2, h3]

/-- Reduction of `applyEvent` on a partial event with non-blank text. -/
theorem applyEvent_interim (l : List TranscriptEntry) (m : VapiMessage)
    (now : Nat) (h1 : m.type = "transcript")
    (h2 : blankOnly (msgText m) = false) (h3 : msgIsFinal m = false) :
    applyEvent l m now = applyInterim (msgRole m) (msgText m) now l := by
  simp [applyEvent, h1, h2, h3]

/-- The counting predicate of `interimCount` holds exactly on the
entries the `applyInterim` branch test matches. -/
theorem interim_pred_eq_true {e : TranscriptEntry} {ρ : Speaker} :
    (decide (e.role = ρ) && !e.isFinal) = true ↔
      (e.role = ρ ∧ e.isFinal = false) := by
  cases hf : e.isFinal <;> simp [hf]

/-- An in-place partial update or partial append never touches another
role's non-final count. -/
theorem interimCount_applyInterim_ne (ρ0 : Speaker) (t : String) (now : Nat)
    (l : List TranscriptEntry) (ρ : Speaker) (hne : ρ ≠ ρ0) :
    interimCount (applyInterim ρ0 t now l) ρ = interimCount l ρ := by
  induction l with
  | nil => simp [applyInterim, interimCount, List.countP_cons, Ne.symm hne]
  | cons e rest ih =>
      by_cases h : e.role = ρ0 ∧ e.isFinal = false
      · have h1 : ¬ e.role = ρ := by rw [h.1]; exact Ne.symm hne
        simp [applyInterim, h, interimCount, List.countP_cons, h1]
      · simp only [applyInterim, if_neg h]
        simp only [interimCount, List.countP_cons] at ih ⊢
        omega

/-- For the updated role, `applyInterim` leaves exactly
`max (previous count) 1` non-final entries: it replaces the first match
in place, or appends one when there was none. -/
theorem interimCount_applyInterim_self (ρ0 : Speaker) (t : String) (now : Nat)
    (l : List TranscriptEntry) :
    interimCount (applyInterim ρ0 t now l) ρ0 = max (interimCount l ρ0) 1 := by
  induction l with
  | nil => simp [applyInterim, interimCount, List.countP_cons]
  | cons e rest ih =>
      by_cases h : e.role = ρ0 ∧ e.isFinal = false
      · simp [applyInterim, h, interimCount, List.countP_cons, h.1, h.2]
      · have hp : (decide (e.role = ρ0) && !e.isFinal) = false := by
          rw [← Bool.not_eq_true, interim_pred_eq_true]
          exact h
        simp only [applyInterim, if_neg h]
        simp [interimCount, List.countP_cons, hp] at ih ⊢
        omega

/-- One reconciler step preserves "at most one non-final entry for
role ρ". -/
theorem interimCount_applyEvent_le (l : List TranscriptEntry)
    (m : VapiMessage) (now : Nat) (ρ : Speaker)
    (h : interimCount l ρ ≤ 1) :
    interimCount (applyEvent l m now) ρ ≤ 1 := by
  by_cases h1 : m.type = "transcript"
  · by_cases h2 : blankOnly (msgText m) = true
    · rw [applyEvent_blank l m now h2]; exact h
    · rw [Bool.not_eq_true] at h2
      by_cases h3 : msgIsFinal m = true
      · rw [applyEvent_final l m now h1 h2 h3]
        rw [interimCount, List.countP_append]
        have hfil : List.countP
            (fun e => decide (e.role = ρ) && !e.isFinal)
            (l.filter (fun e => !(decide (e.role = msgRole m) && !e.isFinal)))
            ≤ interimCount l ρ :=
          (List.filter_sublist l).countP_le _
        have hone : List.countP
            (fun (e : TranscriptEntry) => decide (e.role = ρ) && !e.isFinal)
            [⟨msgRole m, msgText m, true, now⟩] = 0 := by
          simp
        omega
      · rw [Bool.not_eq_true] at h3
        rw [applyEvent_interim l m now h1 h2 h3]
        by_cases hρ : ρ = msgRole m
        · subst hρ
          rw [interimCount_applyInterim_self]
          omega
        · rw [interimCount_applyInterim_ne _ _ _ _ _ hρ]
          exact h
  · rw [applyEvent_not_transcript l m now h1]; exact h

/-- An in-place partial update or partial append never changes the
final entries. -/
theorem finalEntries_applyInterim (ρ : Speaker) (t : String) (now : Nat)
    (l : List TranscriptEntry) :
    finalEntries (applyInterim ρ t now l) = finalEntries l := by
  induction l with
  | nil => simp [applyInterim, finalEntries]
  | cons e rest ih =>
      by_cases h : e.role = ρ ∧ e.isFinal = false
      · simp [applyInterim, h, finalEntries, List.filter_cons, h.2]
      · simp only [applyInterim, if_neg h]
        simp only [finalEntries, List.filter_cons] at ih ⊢
        rw [ih]

/-- Removing the stale partial for a role does not change the final
entries. -/
theorem finalEntries_filter_keep (l : List TranscriptEntry) (ρ : Speaker) :
    finalEntries (l.filter (fun e => !(decide (e.role = ρ) && !e.isFinal))) =
      finalEntries l := by
  unfold finalEntries
  rw [List.filter_filter]
  congr 1
  funext e
  cases hf : e.isFinal <;> simp [hf]

/-! ## C3 -/

/-- C3: after the reconciler processes any finite sequence of speech
events starting from the empty transcript, the resulting entry list
contains at most one non-final entry per role. -/
theorem C3_interim_uniqueness (evs : List (VapiMessage × Nat)) (ρ : Speaker) :
    interimCount (processEvents evs) ρ ≤ 1 := by
  suffices h : ∀ l : List TranscriptEntry, (∀ σ, interimCount l σ ≤ 1) →
      ∀ σ, interimCount (evs.foldl (fun acc p => applyEvent acc p.1 p.2) l) σ ≤ 1 by
    exact h [] (fun σ => by simp [interimCount]) ρ
  induction evs with
  | nil => intro l hl σ; exact hl σ
  | cons p rest ih =>
      intro l hl σ
      exact ih (applyEvent l p.1 p.2)
        (fun τ => interimCount_applyEvent_le l p.1 p.2 τ (hl τ)) σ

/-! ## C5 -/

/-- C5: final entries are immutable.  One reconciler step maps the final
entries of the transcript to themselves — unedited, unmoved and
unremoved — followed by exactly the one new final entry a (non-blank)
final event appends; partial events leave them untouched, and a final
event never merges with an existing final entry. -/
theorem C5_final_immutable (l : List TranscriptEntry) (m : VapiMessage)
    (now : Nat) :
    finalEntries (applyEvent l m now) =
      finalEntries l ++
        (if m.type = "transcript" ∧ blankOnly (msgText m) = false ∧
            msgIsFinal m = true
         then [⟨msgRole m, msgText m, true, now⟩] else []) := by
  by_cases h1 : m.type = "transcript"
  · by_cases h2 : blankOnly (msgText m) = true
    · rw [applyEvent_blank l m now h2]
      simp [h2]
    · rw [Bool.not_eq_true] at h2
      by_cases h3 : msgIsFinal m = true
      · rw [applyEvent_final l m now h1 h2 h3]
        rw [if_pos ⟨h1, h2, h3⟩]
        unfold finalEntries
        rw [List.filter_append]
        have hnew : List.filter (fun (e : TranscriptEntry) => e.isFinal)
            [⟨msgRole m, msgText m, true, now⟩] =
            [⟨msgRole m, msgText m, true, now⟩] := by simp
        rw [hnew]
        have := finalEntries_filter_keep l (msgRole m)
        unfold finalEntries at this
        rw [this]
      · rw [Bool.not_eq_true] at h3
        rw [applyEvent_interim l m now h1 h2 h3]
        rw [finalEntries_applyInterim]
        simp [h3]
  · rw [applyEvent_not_transcript l m now h1]
    simp [h1]

/-! ## C9 -/

/-- C9: for every transcript and every speech event whose text is empty
or whitespace-only (`!text.trim()`), the reconciler produces no entry:
the transcript entry list is returned unchanged, whether the event is
partial or final and for either role. -/
theorem C9_blank_noop (l : List TranscriptEntry) (m : VapiMessage)
    (now : Nat) (h : blankOnly (msgText m) = true) :
    applyEvent l m now = l := by
  unfold applyEvent
  split
  · simp [h]
  · rfl

/-- Witness for C9 at a concrete whitespace-only final event. -/
theorem C9_blank_noop_witness :
    blankOnly (msgText ⟨"transcript", "user", " \t ", "", "final"⟩) = true ∧
    applyEvent [⟨Speaker.assistant, "Hello", true, 0⟩]
      ⟨"transcript", "user", " \t ", "", "final"⟩ 3 =
      [⟨Speaker.assistant, "Hello", true, 0⟩] :=
  ⟨rfl, C9_blank_noop _ _ _ rfl⟩

/-! ## C4 -/

/-- C4 counterexample: the claim says a final event's entry occupies the
removed partial's original position.  Concretely: a candidate partial
sits at position 0 and an interviewer final at position 1; when the
candidate's final arrives, the partial at position 0 is removed and the
final is appended at position 1 — not at the partial's original
position 0, so first-appearance order (candidate before interviewer) is
not preserved. -/
theorem C4_counterexample :
    processEvents [(cexMsg1, 0), (cexMsg2, 1)] =
      [⟨Speaker.user, "Hi there I think", false, 0⟩,
       ⟨Speaker.assistant, "Go ahead", true, 1⟩] ∧
    processEvents [(cexMsg1, 0), (cexMsg2, 1), (cexMsg3, 2)] =
      [⟨Speaker.assistant, "Go ahead", true, 1⟩,
       ⟨Speaker.user, "Hi there I think I am ready", true, 2⟩] :=
  ⟨rfl, rfl⟩

/-- C4 amended: a final event removes the role's partial and appends the
new final entry at the end of the list; it therefore occupies the
partial's original position exactly when the partial was the last
entry.  Stated for a transcript `l ++ [p]` whose partial `p` for the
event's role is last: the final entry replaces it in place. -/
theorem C4_amended (l : List TranscriptEntry) (p : TranscriptEntry)
    (m : VapiMessage) (now : Nat)
    (htype : m.type = "transcript")
    (hblank : blankOnly (msgText m) = false)
    (hfin : msgIsFinal m = true)
    (hrole : p.role = msgRole m)
    (hpart : p.isFinal = false)
    (hl : ∀ e ∈ l, e.role = msgRole m → e.isFinal = true) :
    applyEvent (l ++ [p]) m now =
      l ++ [⟨msgRole m, msgText m, true, now⟩] := by
  rw [applyEvent_final _ m now htype hblank hfin]
  rw [List.filter_append]
  have hp : List.filter
      (fun e => !(decide (e.role = msgRole m) && !e.isFinal)) [p] = [] := by
    simp [hrole, hpart]
  have hkeep : List.filter
      (fun e => !(decide (e.role = msgRole m) && !e.isFinal)) l = l := by
    rw [List.filter_eq_self]
    intro e he
    by_cases hr : e.role = msgRole m
    · simp [hr, hl e he hr]
    · simp [hr]
  rw [hp, hkeep, List.append_nil]

/-- Witness for C4 amended: the candidate partial is the last entry, so
the candidate final does take its position. -/
theorem C4_amended_witness :
    cexMsg3.type = "transcript" ∧
    blankOnly (msgText cexMsg3) = false ∧
    msgIsFinal cexMsg3 = true ∧
    applyEvent
      ([⟨Speaker.assistant, "Go ahead", true, 1⟩] ++
        [⟨Speaker.user, "Hi there I think", false, 0⟩]) cexMsg3 2 =
      [⟨Speaker.assistant, "Go ahead", true, 1⟩] ++
        [⟨Speaker.user, "Hi there I think I am ready", true, 2⟩] :=
  ⟨rfl, rfl, rfl,
    C4_amended [⟨Speaker.assistant, "Go ahead", true, 1⟩]
      ⟨Speaker.user, "Hi there I think", false, 0⟩ cexMsg3 2
      rfl rfl rfl rfl rfl
      (by intro e he hr; simp only [List.mem_singleton] at he; rw [he])⟩

/-! ## More helper lemmas (scoring) -/

/-- Clamping into `[50, 82]` lands in `[50, 82]`. -/
theorem clamp50_82 (x : ℤ) :
    50 ≤ max 50 (min 82 x) ∧ max 50 (min 82 x) ≤ 82 :=
  ⟨le_max_left _ _, max_le (by norm_num) (min_le_left _ _)⟩

/-- The non-empty fallback of the feedback lists really is non-empty. -/
theorem fallback_isEmpty_false (l : List String) (g : String) :
    (if l.isEmpty then [g] else l).isEmpty = false := by
  cases l <;> simp

/-! ## C2 -/

/-- C2: for every transcript, every questionCount and every value of the
random jitter stream, each of the five category scores and the total
score of `evaluateTranscript` is an integer (the model scores are `ℤ`)
lying in the closed interval `[50, 82]`. -/
theorem C2_score_bounds (entries : List TranscriptEntry) (qc : Nat)
    (r : ℕ → ℚ) :
    ((evaluateTranscript entries qc r).categoryScores.all
      (fun c => decide (50 ≤ c.score) && decide (c.score ≤ 82))) = true ∧
    50 ≤ (evaluateTranscript entries qc r).totalScore ∧
    (evaluateTranscript entries qc r).totalScore ≤ 82 := by
  refine ⟨?_, (clamp50_82 _).1, (clamp50_82 _).2⟩
  simp only [evaluateTranscript, categoryScores, catScore, List.all_cons,
    List.all_nil, Bool.and_eq_true, decide_eq_true_eq, Bool.and_true]
  exact ⟨⟨(clamp50_82 _).1, (clamp50_82 _).2⟩,
    ⟨(clamp50_82 _).1, (clamp50_82 _).2⟩,
    ⟨(clamp50_82 _).1, (clamp50_82 _).2⟩,
    ⟨(clamp50_82 _).1, (clamp50_82 _).2⟩,
    ⟨(clamp50_82 _).1, (clamp50_82 _).2⟩⟩

/-! ## C7 -/

/-- C7: for every transcript entry list, question count and jitter
stream, the strengths list and the improvements list returned by
`evaluateTranscript` are both non-empty (the source falls back to one
generic line each). -/
theorem C7_nonempty_feedback (entries : List TranscriptEntry) (qc : Nat)
    (r : ℕ → ℚ) :
    ((evaluateTranscript entries qc r).strengths).isEmpty = false ∧
    ((evaluateTranscript entries qc r).areasForImprovement).isEmpty = false :=
  ⟨fallback_isEmpty_false _ _, fallback_isEmpty_false _ _⟩

/-! ## C6 -/

/-- C6 counterexample: with zero final candidate-authored entries and
`questionCount = 5`, the bases are 58/55/54/60/56, so with the jitter at
zero (`Math.random() = 0.5`) the category scores are 58, 55, 54, 60, 56
and the total score is `round(283/5) = 57` — not 50 as the claim
states. -/
theorem C6_counterexample :
    (evaluateTranscript [] 5 (fun _ => 1/2)).totalScore = 57 := by
  simp only [evaluateTranscript, totalScore, categoryScores, catScore,
    commBase, techBase, problemBase, cultureBase, confBase,
    answeredFraction, avgWords, userEntries, totalUserWords,
    hasSubstance, isDetailed, isVerbose, jround]
  norm_num

/-- Interval bound for `catScore`: when the clamp is inactive the score
is the rounded jittered base, bounded by the floor bounds. -/
theorem catScore_between (b v rnd : ℚ) (lo hi : ℤ)
    (h50 : 50 ≤ lo) (h82 : hi ≤ 82)
    (h1 : (lo : ℚ) ≤ b + (rnd - 1/2) * v + 1/2)
    (h2 : b + (rnd - 1/2) * v + 1/2 < (hi : ℚ) + 1) :
    lo ≤ catScore b v rnd ∧ catScore b v rnd ≤ hi := by
  unfold catScore jround
  have hj1 : lo ≤ ⌊b + (rnd - 1/2) * v + 1/2⌋ := Int.le_floor.mpr h1
  have hj2 : ⌊b + (rnd - 1/2) * v + 1/2⌋ < hi + 1 := by
    apply Int.floor_lt.mpr
    push_cast
    linarith
  omega

/-- Bounds for the rounded mean of five scores summing into
`[269, 297]`. -/
theorem jround_div5_between (S : ℤ) (h1 : 269 ≤ S) (h2 : S ≤ 297) :
    54 ≤ jround ((S : ℚ) / 5) ∧ jround ((S : ℚ) / 5) ≤ 59 := by
  unfold jround
  have hc1 : (269 : ℚ) ≤ (S : ℚ) := by exact_mod_cast h1
  have hc2 : (S : ℚ) ≤ 297 := by exact_mod_cast h2
  have hj1 : (54 : ℤ) ≤ ⌊(S : ℚ) / 5 + 1/2⌋ := by
    apply Int.le_floor.mpr
    push_cast
    linarith
  have hj2 : ⌊(S : ℚ) / 5 + 1/2⌋ < 60 := by
    apply Int.floor_lt.mpr
    push_cast
    linarith
  omega

/-- C6 amended: with zero final candidate-authored entries and
`questionCount = 5`, for every jitter stream (`Math.random()` values in
`[0,1)`) the improvements list contains the "address all questions"
entry and the "comprehensive answers" entry; the total score, however,
is not 50 but lies in `[54, 59]` (57 at zero jitter), because the
category bases 58/55/54/60/56 put the clamped rounded mean well above
the floor. -/
theorem C6_amended (entries : List TranscriptEntry) (r : ℕ → ℚ)
    (hu : userEntries entries = [])
    (hr : ∀ i, 0 ≤ r i ∧ r i < 1) :
    "Try to address all questions asked during the interview." ∈
      (evaluateTranscript entries 5 r).areasForImprovement ∧
    "Aim for more comprehensive answers — 60 to 90 seconds per response." ∈
      (evaluateTranscript entries 5 r).areasForImprovement ∧
    54 ≤ (evaluateTranscript entries 5 r).totalScore ∧
    (evaluateTranscript entries 5 r).totalScore ≤ 59 := by
  have havg : avgWords entries = 0 := by
    unfold avgWords
    rw [hu]
    norm_num
  have htuw : totalUserWords entries = 0 := by
    unfold totalUserWords
    rw [hu]
    rfl
  have hfrac : answeredFraction entries 5 = 0 := by
    unfold answeredFraction
    rw [hu]
    norm_num
  have hsub : ¬ hasSubstance entries := by
    unfold hasSubstance
    rw [havg]
    norm_num
  have hdet : ¬ isDetailed entries := by
    unfold isDetailed
    rw [havg]
    norm_num
  have hver : ¬ isVerbose entries := by
    unfold isVerbose
    rw [havg]
    norm_num
  have h25 : ¬ (25 < avgWords entries) := by
    rw [havg]
    norm_num
  have h200 : ¬ (200 < totalUserWords entries) := by
    rw [htuw]
    norm_num
  have hcb : commBase entries 5 = 58 := by
    unfold commBase
    rw [hfrac, if_neg hsub, if_neg hdet, if_neg hver]
    norm_num
  have htb : techBase entries 5 = 55 := by
    unfold techBase
    rw [hfrac, if_neg hdet, if_neg h200]
    norm_num
  have hpb : problemBase entries 5 = 54 := by
    unfold problemBase
    rw [hfrac, if_neg hdet, if_neg h25]
    norm_num
  have hklb : cultureBase entries 5 = 60 := by
    unfold cultureBase
    rw [hfrac, if_neg hsub]
    norm_num
  have hfb : confBase entries 5 = 56 := by
    unfold confBase
    rw [hfrac, if_neg hsub, if_neg hdet, if_neg hver]
    norm_num
  have hc68 : ¬ (68 ≤ commBase entries 5) := by rw [hcb]; norm_num
  have ht65 : ¬ (65 ≤ techBase entries 5) := by rw [htb]; norm_num
  have hrat : ¬ ((4 : ℚ)/5 ≤ answeredFraction entries 5) := by
    rw [hfrac]; norm_num
  have hcf68 : ¬ (68 ≤ confBase entries 5) := by rw [hfb]; norm_num
  have hraw : improvementsRaw entries 5 =
      ["Work on providing more detailed and structured responses.",
       "Strengthen technical depth with specific examples and terminology.",
       "Try to address all questions asked during the interview.",
       "Aim for more comprehensive answers — 60 to 90 seconds per response.",
       "Practice speaking with more confidence and conviction."] := by
    unfold improvementsRaw
    rw [if_neg hc68, if_neg ht65, if_neg hrat, if_neg hdet, if_neg hver,
      if_neg hcf68]
    rfl
  have himp : (evaluateTranscript entries 5 r).areasForImprovement =
      ["Work on providing more detailed and structured responses.",
       "Strengthen technical depth with specific examples and terminology.",
       "Try to address all questions asked during the interview.",
       "Aim for more comprehensive answers — 60 to 90 seconds per response.",
       "Practice speaking with more confidence and conviction."] := by
    show improvementsFinal entries 5 = _
    unfold improvementsFinal
    rw [hraw]
    rfl
  obtain ⟨h00, h01⟩ := hr 0
  obtain ⟨h10, h11⟩ := hr 1
  obtain ⟨h20, h21⟩ := hr 2
  obtain ⟨h30, h31⟩ := hr 3
  obtain ⟨h40, h41⟩ := hr 4
  have hs1 : 55 ≤ catScore (commBase entries 5) 6 (r 0) ∧
      catScore (commBase entries 5) 6 (r 0) ≤ 61 := by
    refine catScore_between _ _ _ _ _ (by norm_num) (by norm_num) ?_ ?_
    · rw [hcb]; push_cast; linarith
    · rw [hcb]; push_cast; linarith
  have hs2 : 52 ≤ catScore (techBase entries 5) 7 (r 1) ∧
      catScore (techBase entries 5) 7 (r 1) ≤ 58 := by
    refine catScore_between _ _ _ _ _ (by norm_num) (by norm_num) ?_ ?_
    · rw [htb]; push_cast; linarith
    · rw [htb]; push_cast; linarith
  have hs3 : 51 ≤ catScore (problemBase entries 5) 6 (r 2) ∧
      catScore (problemBase entries 5) 6 (r 2) ≤ 57 := by
    refine catScore_between _ _ _ _ _ (by norm_num) (by norm_num) ?_ ?_
    · rw [hpb]; push_cast; linarith
    · rw [hpb]; push_cast; linarith
  have hs4 : 58 ≤ catScore (cultureBase entries 5) 5 (r 3) ∧
      catScore (cultureBase entries 5) 5 (r 3) ≤ 62 := by
    refine catScore_between _ _ _ _ _ (by norm_num) (by norm_num) ?_ ?_
    · rw [hklb]; push_cast; linarith
    · rw [hklb]; push_cast; linarith
  have hs5 : 53 ≤ catScore (confBase entries 5) 6 (r 4) ∧
      catScore (confBase entries 5) 6 (r 4) ≤ 59 := by
    refine catScore_between _ _ _ _ _ (by norm_num) (by norm_num) ?_ ?_
    · rw [hfb]; push_cast; linarith
    · rw [hfb]; push_cast; linarith
  have hexp : (evaluateTranscript entries 5 r).totalScore =
      max 50 (min 82 (jround (((catScore (commBase entries 5) 6 (r 0) +
        catScore (techBase entries 5) 7 (r 1) +
        catScore (problemBase entries 5) 6 (r 2) +
        catScore (cultureBase entries 5) 5 (r 3) +
        catScore (confBase entries 5) 6 (r 4) : ℤ) : ℚ) / 5))) := by
    show totalScore entries 5 r = _
    unfold totalScore categoryScores
    simp only [List.map_cons, List.map_nil, List.foldl_cons, List.foldl_nil,
      List.length_cons, List.length_nil, zero_add]
    norm_num
  rw [himp, hexp]
  obtain ⟨hj1, hj2⟩ := jround_div5_between
    (catScore (commBase entries 5) 6 (r 0) +
      catScore (techBase entries 5) 7 (r 1) +
      catScore (problemBase entries 5) 6 (r 2) +
      catScore (cultureBase entries 5) 5 (r 3) +
      catScore (confBase entries 5) 6 (r 4))
    (by omega) (by omega)
  refine ⟨?_, ?_, ?_, ?_⟩
  · exact List.mem_cons_of_mem _ (List.mem_cons_of_mem _
      (List.mem_cons_self _ _))
  · exact List.mem_cons_of_mem _ (List.mem_cons_of_mem _
      (List.mem_cons_of_mem _ (List.mem_cons_self _ _)))
  · omega
  · omega

/-- Witness for C6 amended at the empty transcript and zero jitter. -/
theorem C6_amended_witness :
    userEntries ([] : List TranscriptEntry) = [] ∧
    ("Try to address all questions asked during the interview." ∈
      (evaluateTranscript [] 5 (fun _ => 1/2)).areasForImprovement ∧
     "Aim for more comprehensive answers — 60 to 90 seconds per response." ∈
      (evaluateTranscript [] 5 (fun _ => 1/2)).areasForImprovement ∧
     54 ≤ (evaluateTranscript [] 5 (fun _ => 1/2)).totalScore ∧
     (evaluateTranscript [] 5 (fun _ => 1/2)).totalScore ≤ 59) :=
  ⟨rfl, C6_amended [] (fun _ => 1/2) rfl
    (fun _ => ⟨by norm_num, by norm_num⟩)⟩

/-! ## C1 -/

/-- C1 counterexample: when the engine-reported call end fires first and
the user-confirmed end second, evaluation, persistence and navigation
are each triggered twice — `confirmEnd` performs no guard check, so the
"exactly once in either order" claim fails for this order. -/
theorem C1_counterexample :
    (confirmEnd (onCallEnd initOrch)).evalCount = 2 ∧
    (confirmEnd (onCallEnd initOrch)).saveCount = 2 ∧
    (confirmEnd (onCallEnd initOrch)).navCount = 2 :=
  ⟨rfl, rfl, rfl⟩

/-- C1 amended: the guard is one-directional.  If the user-confirmed end
fires first, the engine call-end callback observes `analysing` already
set and does nothing, so evaluation, persistence and navigation are
each triggered exactly once; in the opposite order `confirmEnd` checks
no guard and they are triggered again (see the counterexample). -/
theorem C1_amended :
    (∀ s : OrchState, onCallEnd (confirmEnd s) = confirmEnd s) ∧
    (onCallEnd (confirmEnd initOrch)).evalCount = 1 ∧
    (onCallEnd (confirmEnd initOrch)).saveCount = 1 ∧
    (onCallEnd (confirmEnd initOrch)).navCount = 1 := by
  refine ⟨fun s => ?_, rfl, rfl, rfl⟩
  simp [onCallEnd, confirmEnd]

/-! ## C8 -/

/-- C8 counterexample: after the session has ended, a second `stopCall`
is *not* error-free — `stopCall` calls `vapi.stop()` with no try/catch,
so when the engine's stop throws the error propagates to the caller. -/
theorem C8_counterexample :
    stopCall endedThrowing = Except.error () :=
  rfl

/-- C8 amended: `forceStop` is idempotent — calling it twice in a row
produces the same end state as calling it once — and total (it
propagates no error even if the engine's `setMuted` or `stop` throws);
and a second `stopCall` after the session has ended leaves the hook
flags unchanged and returns without error provided the engine's `stop`
does not throw (`stopCall` itself catches nothing). -/
theorem C8_amended (s : HookState) :
    forceStop (forceStop s) = forceStop s ∧
    ((∀ eng, s.vapiRef = some eng → eng.stopThrows = false) →
      ∃ t, stopCall s = Except.ok t ∧ t.isCallActive = s.isCallActive ∧
        t.isLoading = s.isLoading ∧ t.isMuted = s.isMuted) := by
  constructor
  · cases hv : s.vapiRef with
    | none => simp [forceStop, hv]
    | some eng =>
        simp only [forceStop, hv]
        cases hm : eng.muteThrows <;> cases hst : eng.stopThrows <;>
          simp [hm, hst]
  · intro h
    cases hv : s.vapiRef with
    | none => exact ⟨s, by simp [stopCall, hv], rfl, rfl, rfl⟩
    | some eng =>
        have hth := h eng hv
        refine ⟨{ s with stopRequested := true }, ?_, rfl, rfl, rfl⟩
        simp [stopCall, hv, hth]

/-- Witness for C8 amended at a concrete post-session state with a
well-behaved engine. -/
theorem C8_amended_witness :
    forceStop (forceStop endedQuiet) = forceStop endedQuiet ∧
    ∃ t, stopCall endedQuiet = Except.ok t ∧
      t.isCallActive = endedQuiet.isCallActive ∧
      t.isLoading = endedQuiet.isLoading ∧
      t.isMuted = endedQuiet.isMuted :=
  ⟨(C8_amended endedQuiet).1,
    (C8_amended endedQuiet).2 (fun eng h => by
      injection h with h2
      rw [← h2])⟩

/-! ## C10 -/

/-- Invariant of the `useVapi` hook: while `vapiRef` is null no flag can
have been set — `startCall` returns before `setIsLoading(true)`, the
engine callbacks are only registered on a created engine, and
`toggleMute` requires the handle. -/
theorem reachable_engine_free_idle :
    ∀ {s : HookState}, Reachable s → s.vapiRef = none →
      s.isCallActive = false ∧ s.isLoading = false ∧ s.isMuted = false := by
  intro s hs
  induction hs with
  | init eng => intro _; exact ⟨rfl, rfl, rfl⟩
  | step hr hst ih =>
      rename_i u v
      intro hnone
      cases hst with
      | callStart eng h => simp [h] at hnone
      | callEnd eng h => simp [h] at hnone
      | errorEvt eng msg h => simp [h] at hnone
      | startCallBegin eng h hact => simp [h] at hnone
      | startCallFail eng msg h => simp [h] at hnone
      | stopOk tt h =>
          cases hv : u.vapiRef with
          | none =>
              simp only [stopCall, hv] at h
              cases h
              exact ih hv
          | some eng =>
              simp only [stopCall, hv] at h
              by_cases hth : eng.stopThrows = true
              · simp [hth] at h
              · rw [if_neg hth] at h
                cases h
                simp [hv] at hnone
      | stopThrown h => exact ih hnone
      | forceStopStep =>
          cases hv : u.vapiRef with
          | none =>
              have hfs : forceStop u = u := by simp [forceStop, hv]
              rw [hfs] at hnone ⊢
              exact ih hnone
          | some eng => simp [forceStop, hv]
      | toggleMuteStep eng h hact => simp [h] at hnone

/-- C10: after `forceStop` returns, the hook's exposed flags read
`isCallActive = false`, `isLoading = false` and `isMuted = false` for
every reachable hook state — in particular the exposed mute flag reads
false even though `forceStop` has just requested engine muting via
`setMuted(true)` (second conjunct: the engine-side mute is left true
whenever the engine handle exists and `setMuted` does not throw). -/
theorem C10_forceStop_flags (s : HookState) (hs : Reachable s) :
    ((forceStop s).isCallActive = false ∧ (forceStop s).isLoading = false ∧
      (forceStop s).isMuted = false) ∧
    (∀ eng, s.vapiRef = some eng → eng.muteThrows = false →
      (forceStop s).engineMuted = true) := by
  constructor
  · cases hv : s.vapiRef with
    | none =>
        have hfs : forceStop s = s := by simp [forceStop, hv]
        rw [hfs]
        exact reachable_engine_free_idle hs hv
    | some eng => simp [forceStop, hv]
  · intro eng hv hm
    simp [forceStop, hv, hm]

/-- Witness for C10 at the freshly mounted hook with a well-behaved
engine. -/
theorem C10_witness :
    (forceStop (initHook (some ⟨false, false⟩))).isCallActive = false ∧
    (forceStop (initHook (some ⟨false, false⟩))).isMuted = false ∧
    (forceStop (initHook (some ⟨false, false⟩))).engineMuted = true := by
  obtain ⟨⟨h1, h2, h3⟩, h4⟩ :=
    C10_forceStop_flags (initHook (some ⟨false, false⟩)) (Reachable.init _)
  exact ⟨h1, h3, h4 _ rfl rfl⟩
